import Mathlib

/-!
Verification of the ATOMICCOMMSBOT moderation bot core.

The Python sources are shallowly embedded:
* strings handled character-by-character become `List Char`,
* wall-clock timestamps (`time.time()` / `datetime.now().timestamp()`) become `ℚ`,
* Python exceptions become an explicit `Except PyErr` result,
* the MongoDB collections become in-memory lists of records.
-/

/-- Python exception classes relevant to the embedded code.
`DatabaseError` (db.py line 25) derives from `Exception`, not from
`PyMongoError`, which matters for the `backoff` decorator semantics. -/
inductive PyErr
  | pyMongoError
  | databaseError
  | valueError
  deriving DecidableEq, Repr

/-- `PyMongoError` instance test used by `backoff.on_exception(..., PyMongoError, ...)`:
`DatabaseError` is not a subclass of `PyMongoError`. -/
def isPyMongoError : PyErr → Bool
  | .pyMongoError => true
  | _ => false

/-! ### Python `int()` and `parse_duration` (utils.py lines 360-378) -/

def digitVal (c : Char) : Nat := c.toNat - '0'.toNat

/-- Value of a list of decimal digits, most significant first. -/
def digitsVal (ds : List Char) : Nat := ds.foldl (fun a c => 10 * a + digitVal c) 0

/-- Tail of a valid Python decimal int literal body: digits, with single
underscores allowed only between digits. -/
def intBodyAux : List Char → Bool
  | [] => true
  | '_' :: c :: rest => c.isDigit && intBodyAux rest
  | c :: rest => c.isDigit && intBodyAux rest

/-- A valid Python decimal int literal body: nonempty, starts with a digit,
underscores only between digits. -/
def intBodyOk : List Char → Bool
  | [] => false
  | c :: rest => c.isDigit && intBodyAux rest

/-- Python `str.strip()`: remove leading and trailing whitespace. -/
def pyStrip (s : List Char) : List Char :=
  ((s.dropWhile Char.isWhitespace).reverse.dropWhile Char.isWhitespace).reverse

/-- Python `int(s)` for decimal strings: optional surrounding whitespace, an
optional sign, then a digit string with optional single underscores between
digits; raises `ValueError` otherwise. -/
def pyInt (s : List Char) : Except PyErr Int :=
  match pyStrip s with
  | '+' :: r =>
      if intBodyOk r then .ok (digitsVal (r.filter (fun c => c ≠ '_')) : Int)
      else .error .valueError
  | '-' :: r =>
      if intBodyOk r then .ok (-(digitsVal (r.filter (fun c => c ≠ '_')) : Int))
      else .error .valueError
  | r =>
      if intBodyOk r then .ok (digitsVal (r.filter (fun c => c ≠ '_')) : Int)
      else .error .valueError

/-- `utils.parse_duration` (utils.py lines 360-378): dispatch on the final
character, convert the remaining prefix with `int(...)`, multiply by the unit;
return `None` when no known unit suffix is present.  A failing `int(...)`
raises, which the embedding surfaces as `Except.error`. -/
def parse_duration (s : List Char) : Except PyErr (Option Int) :=
  if s.getLast? = some 's' then (pyInt s.dropLast).map (fun n => some n)
  else if s.getLast? = some 'm' then (pyInt s.dropLast).map (fun n => some (n * 60))
  else if s.getLast? = some 'h' then (pyInt s.dropLast).map (fun n => some (n * 3600))
  else if s.getLast? = some 'd' then (pyInt s.dropLast).map (fun n => some (n * 86400))
  else .ok none

/-! ### `chunk_message` (utils.py lines 324-344) -/

/-- Python `message.split('\n')`. -/
def splitNl : List Char → List (List Char)
  | [] => [[]]
  | c :: cs =>
      if c = '\n' then [] :: splitNl cs
      else
        match splitNl cs with
        | h :: t => (c :: h) :: t
        | [] => [[c]]

/-- The loop body of `chunk_message`: accumulated chunks plus the current
chunk being built. -/
def chunkStep (chunk_size : Nat) (acc : List (List Char) × List Char)
    (part : List Char) : List (List Char) × List Char :=
  if acc.2.length + part.length + 1 ≤ chunk_size then
    (acc.1, acc.2 ++ part ++ ['\n'])
  else
    (acc.1 ++ [pyStrip acc.2], part ++ ['\n'])

/-- `utils.chunk_message` (utils.py lines 324-344). -/
def chunk_message (message : List Char) (chunk_size : Nat) : List (List Char) :=
  if message.length ≤ chunk_size then [message]
  else
    let r := (splitNl message).foldl (chunkStep chunk_size) ([], [])
    if r.2 ≠ [] then r.1 ++ [pyStrip r.2] else r.1

/-! ### Warning and mute records (db.py) -/

/-- A document of the `warnings` collection as inserted by
`Database.add_warning` (db.py lines 250-257). `expiry = none` models a
document whose `expiry` field is `None`. -/
structure WarningRec where
  user_id : Int
  chat_id : Int
  reason : String
  admin_id : Int
  timestamp : ℚ
  expiry : Option ℚ
  deriving DecidableEq, Repr

/-- The active predicate of `Database.get_warnings` (db.py lines 267-272):
a warning matches when `expiry > now` or `expiry` is null. -/
def warningActive (now : ℚ) (w : WarningRec) : Bool :=
  match w.expiry with
  | none => true
  | some e => decide (now < e)

/-- `Database.get_warnings` with `active_only=True` (db.py lines 262-276):
filter the stored warnings by `(user_id, chat_id)` and the active predicate.
The function is pure, so re-querying an unchanged store returns the same
result. -/
def get_warnings (store : List WarningRec) (chat_id user_id : Int) (now : ℚ) :
    List WarningRec :=
  store.filter (fun w =>
    w.user_id == user_id && w.chat_id == chat_id && warningActive now w)

/-- Modelled from the spec: `Database.remove_last_warning` is invoked by
`handlers.unwarn_user` (src/handlers.py line 1125) but no such method exists
in src/db.py.  Per the spec (§4.2): mark the most recently issued active
warning of the target as expired by setting its expiry to `now`, returning it;
return `None` and change nothing when the target has no active warning;
never remove or mutate an already-expired warning.  The store is
append-ordered, so the most recently issued matching active warning is the
last one in the list; the recursion prefers a removal found in the tail. -/
def remove_last_warning (chat_id user_id : Int) (now : ℚ) :
    List WarningRec → List WarningRec × Option WarningRec
  | [] => ([], none)
  | w :: ws =>
      match remove_last_warning chat_id user_id now ws with
      | (ws', some x) => (w :: ws', some x)
      | (_, none) =>
          if w.chat_id == chat_id && w.user_id == user_id && warningActive now w
          then (({ w with expiry := some now }) :: ws, some w)
          else (w :: ws, none)

/-- A document of the `mutes` collection as inserted by `Database.add_mute`
(db.py lines 283-291).  The inserted document carries an `until` field but no
`expiry` field; `expiry = none` models the absent field. -/
structure MuteRec where
  chat_id : Int
  user_id : Int
  untilTime : ℚ
  reason : String
  admin_id : Int
  timestamp : ℚ
  expiry : Option ℚ
  deriving DecidableEq, Repr

/-- The persistent moderation state touched by the warn path: the `warnings`
and `mutes` collections. -/
structure DbState where
  warnings : List WarningRec
  mutes : List MuteRec
  deriving DecidableEq, Repr

/-- `Database.add_warning` (db.py lines 245-260): insert one warning document;
no other collection is touched and no escalation logic runs. -/
def Database.add_warning (st : DbState) (chat_id user_id : Int) (reason : String)
    (admin_id : Int) (now : ℚ) (expiry : Option ℚ) : DbState :=
  { st with warnings := st.warnings ++ [⟨user_id, chat_id, reason, admin_id, now, expiry⟩] }

/-- `Database.add_mute` (db.py lines 278-294): insert one mute document with an
`until` field and no `expiry` field. -/
def Database.add_mute (st : DbState) (chat_id user_id : Int) (untilTime : ℚ)
    (reason : String) (admin_id : Int) (now : ℚ) : DbState :=
  { st with mutes := st.mutes ++ [⟨chat_id, user_id, untilTime, reason, admin_id, now, none⟩] }

/-- `Database.get_active_mutes` (db.py lines 296-320): query
`{"expiry": {"$gt": now}}`, optionally filtered by chat.  Following MongoDB
semantics, a document without an `expiry` field does not match `$gt`. -/
def get_active_mutes (st : DbState) (chat_id : Option Int) (now : ℚ) : List MuteRec :=
  st.mutes.filter (fun m =>
    (match m.expiry with
     | some e => decide (now < e)
     | none => false) &&
    (match chat_id with
     | some c => m.chat_id == c
     | none => true))

/-- `IsActivelyMuted(target)` read off the store: the target appears among the
active mutes of its chat. -/
def is_actively_muted (st : DbState) (chat_id user_id : Int) (now : ℚ) : Bool :=
  (get_active_mutes st (some chat_id) now).any (fun m => m.user_id == user_id)

/-- The database effect of the `/warn` handler `warn_user`
(handlers.py lines 1056-1082): exactly one `add_warning` insert (the call at
line 1057 passes no expiry, so the stored `expiry` is `None`) followed by
reads and outbound messages.  No threshold is checked and no mute-track
operation is invoked anywhere in the handler. -/
def warn_user_db_effect (st : DbState) (chat_id target_user_id : Int)
    (reason : String) (admin_id : Int) (now : ℚ) : DbState :=
  Database.add_warning st chat_id target_user_id reason admin_id now none

/-! ### Retry discipline (db.py lines 22-23, 88, 245-260) -/

/-- The body of `Database.add_warning` as seen by the `backoff` decorator
(db.py lines 248-260): run the underlying store operation for this attempt;
a raised `PyMongoError` is caught and re-raised as `DatabaseError`; other
exceptions propagate.  `store k` is the outcome of the k-th underlying
`insert_one` call. -/
def add_warning_body (store : Nat → Except PyErr Unit) (k : Nat) : Except PyErr Unit :=
  match store k with
  | .ok u => .ok u
  | .error e => if isPyMongoError e then .error .databaseError else .error e

/-- `backoff.on_exception(backoff.expo, PyMongoError, max_tries=n)` semantics:
run the body; when it raises an exception that is an instance of the matched
class and tries remain, retry; otherwise surface the exception.  Returns the
outcome together with the number of attempts actually made. -/
def backoffRetry (isMatch : PyErr → Bool) (body : Nat → Except PyErr Unit) :
    Nat → Nat → Except PyErr Unit × Nat
  | k, 0 => (.error .pyMongoError, k)
  | k, triesLeft + 1 =>
      match body k with
      | .ok u => (.ok u, k + 1)
      | .error e =>
          if isMatch e && decide (0 < triesLeft) then
            backoffRetry isMatch body (k + 1) triesLeft
          else (.error e, k + 1)

/-- `Database.add_warning` as decorated at db.py line 245:
`@backoff.on_exception(backoff.expo, PyMongoError, max_tries=MAX_RETRIES)`
with `MAX_RETRIES = 3` (db.py line 22). -/
def add_warning_with_retries (store : Nat → Except PyErr Unit) :
    Except PyErr Unit × Nat :=
  backoffRetry isPyMongoError (add_warning_body store) 0 3

/-! ### Sliding-window rate limiter (utils.py lines 38-117, constants.py line 89) -/

/-- `RATE_LIMIT_PERIOD = timedelta(seconds=5)` (constants.py line 89), in seconds. -/
def RATE_LIMIT_PERIOD : ℚ := 5

/-- `MAX_REQUESTS = 5` (utils.py line 61). -/
def MAX_REQUESTS : Nat := 5

/-- One call of `RateLimiter.is_rate_limited` for a fixed user key
(utils.py lines 44-74): prune the cached timestamps to those strictly newer
than `now - RATE_LIMIT_PERIOD`; if at least `MAX_REQUESTS` remain, report
limited without recording; otherwise append `now` and admit.  Returns the new
cached list and the limited flag. -/
def is_rate_limited (timestamps : List ℚ) (current_time : ℚ) : List ℚ × Bool :=
  let ts := timestamps.filter (fun t => decide (current_time - RATE_LIMIT_PERIOD < t))
  if MAX_REQUESTS ≤ ts.length then (ts, true)
  else (ts ++ [current_time], false)

/-- A sequence of `is_rate_limited` calls for one user: final cached list and
the list of check times that were admitted (not limited), in order. -/
def rlRun (s : List ℚ) : List ℚ → List ℚ × List ℚ
  | [] => (s, [])
  | t :: ts =>
      let r := is_rate_limited s t
      let rest := rlRun r.1 ts
      (rest.1, if r.2 then rest.2 else t :: rest.2)

/-- The `check_rate_limit` decorator for a user id (utils.py lines 89-117):
a user in `ADMIN_USER_IDS` bypasses the limiter entirely (cache untouched);
otherwise `rate_limiter.is_rate_limited` decides.  `admins` is the
environment-loaded `ADMIN_USER_IDS` membership. -/
def check_rate_limit_step (admins : Nat → Bool) (user_id : Nat)
    (timestamps : List ℚ) (now : ℚ) : List ℚ × Bool :=
  if admins user_id then (timestamps, false)
  else is_rate_limited timestamps now

/-- A sequence of `check_rate_limit` admissions for one user: final cached
list and the admitted check times. -/
def checkRlRun (admins : Nat → Bool) (user_id : Nat) (s : List ℚ) :
    List ℚ → List ℚ × List ℚ
  | [] => (s, [])
  | t :: ts =>
      let r := check_rate_limit_step admins user_id s t
      let rest := checkRlRun admins user_id r.1 ts
      (rest.1, if r.2 then rest.2 else t :: rest.2)

/-! ### Per-command cooldowns (utils.py lines 120-155, constants.py lines 90-101) -/

/-- `COMMAND_COOLDOWNS` (constants.py lines 90-101). -/
def COMMAND_COOLDOWNS : String → Option Nat := fun name =>
  [("default", 5), ("nukem", 60), ("scan_alien", 30), ("mention_all", 120),
   ("rate_user", 10), ("warn", 10), ("karma", 5), ("stats", 10), ("info", 10),
   ("help", 5)].lookup name

/-- Cooldown resolution at utils.py line 137:
`COMMAND_COOLDOWNS.get(command_name, default_cooldown_seconds if
default_cooldown_seconds is not None else COMMAND_COOLDOWNS.get("default", 5))`. -/
def lookupCooldown (command_name : String) (default_cooldown_seconds : Option Nat) : Nat :=
  match COMMAND_COOLDOWNS command_name with
  | some v => v
  | none =>
      match default_cooldown_seconds with
      | some d => d
      | none => (COMMAND_COOLDOWNS "default").getD 5

/-- `LAST_COMMAND_USAGE` (utils.py line 120): a `defaultdict` mapping command
name and user id to the last accepted invocation time, defaulting to `0.0`. -/
def CooldownState : Type := String → Nat → ℚ

/-- The fresh `LAST_COMMAND_USAGE` table: every entry defaults to `0.0`. -/
def initialCooldownState : CooldownState := fun _ _ => 0

/-- Outcome of the cooldown gate. -/
inductive CooldownOutcome
  | bypassedAdmin
  | allowed
  | onCooldown (remaining : ℤ)
  deriving DecidableEq, Repr

/-- The core of the `command_cooldown` decorator for a known user
(utils.py lines 130-153): admins in `ADMIN_USER_IDS` bypass; otherwise reject
when `now - last_usage < cooldown`, reporting
`int(cooldown_seconds - (current_time - last_usage))` remaining seconds
(a positive value, so Python `int()` truncation is the floor); on acceptance
record `now` as the new last usage before the handler runs. -/
def command_cooldown_check (command_name : String) (default_cd : Option Nat)
    (admins : Nat → Bool) (st : CooldownState) (user_id : Nat) (now : ℚ) :
    CooldownState × CooldownOutcome :=
  if admins user_id then (st, .bypassedAdmin)
  else
    let cooldown_seconds : ℚ := (lookupCooldown command_name default_cd : ℚ)
    let last_usage := st command_name user_id
    if now - last_usage < cooldown_seconds then
      (st, .onCooldown ⌊cooldown_seconds - (now - last_usage)⌋)
    else
      (fun c u => if c = command_name ∧ u = user_id then now else st c u, .allowed)

/-! ### The decorator pipeline of `/warn` (handlers.py lines 971-975) -/

/-- Telegram chat kinds distinguished by the gates. -/
inductive ChatType
  | group
  | supergroup
  | privateChat
  | channel
  deriving DecidableEq, Repr

/-- The slice of a `telegram.Update` consulted by the admission gates. -/
structure TgUpdate where
  effective_user : Option Nat
  effective_chat : Option ChatType
  has_message : Bool
  deriving DecidableEq, Repr

/-- Outcome of the wrapped handler body, as classified by `error_handler`
(utils.py lines 158-187). -/
inductive HandlerResult
  | ok
  | dbError
  | telegramError
  | unexpectedError
  deriving DecidableEq, Repr

/-- What became of an inbound `/warn` command after the decorator stack ran. -/
inductive AdmissionResult
  | handlerOk
  | handlerFailed
  | droppedNoChat
  | rejectedChatType
  | rejectedCooldown (remaining : ℤ)
  | droppedNoUser
  | rejectedUnauthorized
  deriving DecidableEq, Repr

/-- Observable outcome of the pipeline: the final result, how many outbound
user-visible notices the gates and the error handler emitted, the cooldown
table as the innermost layers saw it, and whether chat-level admin membership
was ever consulted. -/
structure PipeOut where
  result : AdmissionResult
  notices : Nat
  cooldownState : CooldownState
  authConsulted : Bool

/-- `error_handler` (utils.py lines 158-187), innermost decorator: a raised
`DatabaseError`, `TelegramError` or unexpected exception is caught and
produces one notice when the update carries a message (`if update and
update.message` guards at lines 166, 173, 181). -/
def error_handler_run (u : TgUpdate) (st : CooldownState) (auth : Bool)
    (hres : HandlerResult) : PipeOut :=
  match hres with
  | .ok => ⟨.handlerOk, 0, st, auth⟩
  | _ => ⟨.handlerFailed, if u.has_message then 1 else 0, st, auth⟩

/-- `admin_required` (utils.py lines 190-252): a missing `effective_user`
returns silently (lines 197-199, no notice); a global admin passes without a
chat-level check; otherwise chat-admin status is consulted only in group or
supergroup chats (line 216); rejection emits one notice only when
`update.message` is present (lines 244-245).  `gAdmin` is the
environment-loaded `ADMIN_USER_IDS` membership and `cAdmin` the platform's
answer to the chat-administrator lookup for this chat. -/
def admin_required_run (gAdmin cAdmin : Nat → Bool) (u : TgUpdate)
    (st : CooldownState) (hres : HandlerResult) : PipeOut :=
  match u.effective_user with
  | none => ⟨.droppedNoUser, 0, st, false⟩
  | some uid =>
      if gAdmin uid then error_handler_run u st false hres
      else
        if u.effective_chat = some .group ∨ u.effective_chat = some .supergroup then
          if cAdmin uid then error_handler_run u st true hres
          else ⟨.rejectedUnauthorized, if u.has_message then 1 else 0, st, true⟩
        else ⟨.rejectedUnauthorized, if u.has_message then 1 else 0, st, false⟩

/-- `command_cooldown` wrapping `admin_required` (utils.py lines 122-155):
a missing `effective_user` falls through to the inner handler (lines
127-128); admins bypass; a cooldown rejection emits exactly one notice via
`safe_markdown_message` (line 149, sent to the chat even when the update has
no message) and the inner gate never runs; on acceptance the updated table is
what the inner layers and handler see. -/
def command_cooldown_run (command_name : String) (default_cd : Option Nat)
    (gAdmin cAdmin : Nat → Bool) (u : TgUpdate) (st : CooldownState) (now : ℚ)
    (hres : HandlerResult) : PipeOut :=
  match u.effective_user with
  | none => admin_required_run gAdmin cAdmin u st hres
  | some uid =>
      let r := command_cooldown_check command_name default_cd gAdmin st uid now
      match r.2 with
      | .onCooldown remaining => ⟨.rejectedCooldown remaining, 1, st, false⟩
      | _ => admin_required_run gAdmin cAdmin u r.1 hres

/-- The full decorator stack of `warn_user` (handlers.py lines 971-975), in
execution order: `chat_type_allowed` restricted to group and supergroup (utils.py lines
255-277, one notice on rejection only when a message is present), then
`command_cooldown("warn")`, then `admin_required(fetch_chat_admins=True)`,
then `error_handler` around the handler body.  No rate-limit gate is applied
to this command. -/
def warn_admission (gAdmin cAdmin : Nat → Bool) (u : TgUpdate)
    (st : CooldownState) (now : ℚ) (hres : HandlerResult) : PipeOut :=
  match u.effective_chat with
  | none => ⟨.droppedNoChat, if u.has_message then 1 else 0, st, false⟩
  | some ct =>
      if ct = .group ∨ ct = .supergroup then
        command_cooldown_run "warn" none gAdmin cAdmin u st now hres
      else ⟨.rejectedChatType, if u.has_message then 1 else 0, st, false⟩

/-! ## Helper lemmas -/

theorem pyStrip_length_le (s : List Char) : (pyStrip s).length ≤ s.length := by
  have h1 : (s.dropWhile Char.isWhitespace).length ≤ s.length :=
    (List.dropWhile_sublist _).length_le
  have h2 : ((s.dropWhile Char.isWhitespace).reverse.dropWhile Char.isWhitespace).length
      ≤ (s.dropWhile Char.isWhitespace).reverse.length :=
    (List.dropWhile_sublist _).length_le
  simp only [pyStrip, List.length_reverse] at *
  omega

theorem warningActive_iff (now : ℚ) (w : WarningRec) :
    warningActive now w = true ↔ (w.expiry = none ∨ ∃ e, w.expiry = some e ∧ now < e) := by
  unfold warningActive
  cases h : w.expiry <;> simp [h]

/-! ## C6: the active-warnings read -/

/-- C6: `get_warnings` returns exactly the stored warnings of the target whose
expiry is null or strictly greater than `now`; warnings with `expiry ≤ now`
are excluded and warnings with null expiry included.  The function is pure,
so re-querying an unchanged store trivially returns the same result. -/
theorem get_warnings_active_iff (store : List WarningRec) (c uId : Int) (now : ℚ)
    (w : WarningRec) :
    w ∈ get_warnings store c uId now ↔
      w ∈ store ∧ w.chat_id = c ∧ w.user_id = uId ∧
        (w.expiry = none ∨ ∃ e, w.expiry = some e ∧ now < e) := by
  simp only [get_warnings, List.mem_filter, Bool.and_eq_true, beq_iff_eq, warningActive_iff]
  tauto

/-! ## C1: no automatic escalation to a mute -/

/-- C1 counterexample: issuing three no-expiry warnings to the same
(chat, user) from an empty store leaves three active warnings but no mute
record at all, so `IsActivelyMuted` is false immediately after the third
warning — no 24h system mute is applied by the `AddWarning` path. -/
theorem warn_threshold_no_mute_cex :
    (get_warnings (warn_user_db_effect (warn_user_db_effect (warn_user_db_effect
        ⟨[], []⟩ 1 2 "r1" 9 10) 1 2 "r2" 9 20) 1 2 "r3" 9 30).warnings 1 2 31).length = 3 ∧
    (warn_user_db_effect (warn_user_db_effect (warn_user_db_effect
        ⟨[], []⟩ 1 2 "r1" 9 10) 1 2 "r2" 9 20) 1 2 "r3" 9 30).mutes = [] ∧
    is_actively_muted (warn_user_db_effect (warn_user_db_effect (warn_user_db_effect
        ⟨[], []⟩ 1 2 "r1" 9 10) 1 2 "r2" 9 20) 1 2 "r3" 9 30) 1 2 31 = false := by
  refine ⟨by decide, rfl, rfl⟩

/-- C1 amended: the `/warn` path (`Database.add_warning` invoked by
`warn_user`) only appends a warning record; it never touches the `mutes`
collection and never changes `IsActivelyMuted`, at any warning count. -/
theorem warn_user_no_escalation (st : DbState) (chat target : Int) (reason : String)
    (admin : Int) (now : ℚ) (c u : Int) (t : ℚ) :
    (warn_user_db_effect st chat target reason admin now).mutes = st.mutes ∧
    is_actively_muted (warn_user_db_effect st chat target reason admin now) c u t
      = is_actively_muted st c u t ∧
    (warn_user_db_effect st chat target reason admin now).warnings
      = st.warnings ++ [⟨target, chat, reason, admin, now, none⟩] :=
  ⟨rfl, rfl, rfl⟩

/-! ## C2: the retry decorator never retries -/

/-- C2: the `backoff` decorator on `Database.add_warning` matches
`PyMongoError`, but the method body catches `PyMongoError` and re-raises
`DatabaseError`, so a store that fails transiently on the first two attempts
and would succeed on the third still surfaces `DatabaseError` after exactly
one attempt; no retry ever happens for any store behaviour. -/
theorem add_warning_retry_bug_eval :
    add_warning_with_retries (fun k => if k < 2 then .error .pyMongoError else .ok ())
      = (.error .databaseError, 1) ∧
    (fun k => if k < 2 then (Except.error PyErr.pyMongoError : Except PyErr Unit)
      else .ok ()) 2 = .ok () ∧
    (∀ store : Nat → Except PyErr Unit, (add_warning_with_retries store).2 = 1) := by
  refine ⟨rfl, rfl, fun store => ?_⟩
  have hnm : ∀ e, add_warning_body store 0 = .error e → isPyMongoError e = false := by
    intro e h
    unfold add_warning_body at h
    cases hs : store 0 with
    | ok u => rw [hs] at h; exact absurd h (by simp)
    | error e' =>
        rw [hs] at h
        by_cases hm : isPyMongoError e' = true
        · simp [hm] at h
          rw [← h]
          rfl
        · simp only [if_neg hm, Except.error.injEq] at h
          rw [← h]
          exact Bool.of_not_eq_true hm
  unfold add_warning_with_retries backoffRetry
  cases h : add_warning_body store 0 with
  | ok u => simp [h]
  | error e => simp [h, hnm e h]

/-! ## C3: gate order of the decorator stack -/

/-- C3 counterexample: a non-admin user invoking `/warn` in a group while the
command is on cooldown is rejected by the cooldown gate, and chat-admin
membership (the authorization decision) is never consulted — so authorization
is not decided before the cooldown state is consulted. -/
theorem cooldown_before_auth_cex :
    (warn_admission (fun _ => false) (fun _ => false) ⟨some 7, some .group, true⟩
        initialCooldownState 5 .ok).result = .rejectedCooldown 5 ∧
    (warn_admission (fun _ => false) (fun _ => false) ⟨some 7, some .group, true⟩
        initialCooldownState 5 .ok).authConsulted = false := by
  have h10 : lookupCooldown "warn" none = 10 := rfl
  constructor <;>
    norm_num [warn_admission, command_cooldown_run, command_cooldown_check,
      admin_required_run, initialCooldownState, h10]

/-- C3 amended: the decorator stack of `/warn` runs ChatTypeGate first, then
CooldownGate, then AuthorizationGate (no rate-limit gate is applied to this
command): a chat-type rejection leaves the cooldown table untouched and never
consults authorization; a cooldown rejection never consults authorization;
authorization is consulted only inside group/supergroup chats after the chat
gate passed; and for a non-admin user an unauthorized rejection happens only
after the cooldown gate has already recorded the invocation time. -/
theorem warn_admission_gate_order (gAdmin cAdmin : Nat → Bool) (u : TgUpdate)
    (st : CooldownState) (now : ℚ) (hres : HandlerResult) :
    ((warn_admission gAdmin cAdmin u st now hres).result = .droppedNoChat ∨
     (warn_admission gAdmin cAdmin u st now hres).result = .rejectedChatType →
      (warn_admission gAdmin cAdmin u st now hres).authConsulted = false ∧
      (warn_admission gAdmin cAdmin u st now hres).cooldownState = st) ∧
    (∀ r, (warn_admission gAdmin cAdmin u st now hres).result = .rejectedCooldown r →
      (warn_admission gAdmin cAdmin u st now hres).authConsulted = false ∧
      (warn_admission gAdmin cAdmin u st now hres).cooldownState = st) ∧
    ((warn_admission gAdmin cAdmin u st now hres).authConsulted = true →
      u.effective_chat = some .group ∨ u.effective_chat = some .supergroup) ∧
    (∀ uid, u.effective_user = some uid → gAdmin uid = false →
      (warn_admission gAdmin cAdmin u st now hres).result = .rejectedUnauthorized →
      (warn_admission gAdmin cAdmin u st now hres).cooldownState "warn" uid = now) := by
  rcases u with ⟨eu, ec, msg⟩
  cases ec with
  | none => simp [warn_admission]
  | some ct =>
      by_cases hct : ct = .group ∨ ct = .supergroup
      · cases eu with
        | none =>
            cases hres <;>
              simp [warn_admission, hct, command_cooldown_run, admin_required_run]
        | some uid =>
            by_cases hg : gAdmin uid = true
            · cases hres <;>
                simp [warn_admission, hct, command_cooldown_run, admin_required_run,
                  command_cooldown_check, hg, error_handler_run]
            · rw [Bool.not_eq_true] at hg
              by_cases hcd : now - st "warn" uid < ((lookupCooldown "warn" none : Nat) : ℚ)
              · cases hres <;>
                  simp [warn_admission, hct, command_cooldown_run, admin_required_run,
                    command_cooldown_check, hg, hcd, error_handler_run]
              · by_cases hca : cAdmin uid = true
                · cases hres <;>
                    simp [warn_admission, hct, command_cooldown_run, admin_required_run,
                      command_cooldown_check, hg, hcd, hca, error_handler_run]
                · rw [Bool.not_eq_true] at hca
                  cases hres <;>
                    simp [warn_admission, hct, command_cooldown_run, admin_required_run,
                      command_cooldown_check, hg, hcd, hca, error_handler_run]
      · simp [warn_admission, hct, command_cooldown_run, admin_required_run]

/-- C3 amended, witness: a concrete non-admin unauthorized `/warn` in a group
at time 100 from a fresh cooldown table is rejected as unauthorized and the
cooldown table already records time 100 for the user. -/
theorem warn_admission_gate_order_witness :
    (warn_admission (fun _ => false) (fun _ => false) ⟨some 7, some .group, true⟩
        initialCooldownState 100 .ok).result = .rejectedUnauthorized ∧
    (warn_admission (fun _ => false) (fun _ => false) ⟨some 7, some .group, true⟩
        initialCooldownState 100 .ok).cooldownState "warn" 7 = 100 := by
  have h10 : lookupCooldown "warn" none = 10 := rfl
  have hres : (warn_admission (fun _ => false) (fun _ => false) ⟨some 7, some .group, true⟩
      initialCooldownState 100 .ok).result = .rejectedUnauthorized := by
    norm_num [warn_admission, command_cooldown_run, command_cooldown_check,
      admin_required_run, initialCooldownState, h10]
  exact ⟨hres, (warn_admission_gate_order (fun _ => false) (fun _ => false)
      ⟨some 7, some .group, true⟩ initialCooldownState 100 .ok).2.2.2 7 rfl rfl hres⟩

/-! ## C8: one notice per rejection -/

/-- C8 counterexample: an inbound `/warn` in a group whose update carries no
`effective_user` is silently dropped by `admin_required` (utils.py lines
197-199): the command is dropped and zero outbound notices are emitted. -/
theorem silent_drop_no_user_cex :
    (warn_admission (fun _ => false) (fun _ => false) ⟨none, some .group, true⟩
        initialCooldownState 100 .ok).result = .droppedNoUser ∧
    (warn_admission (fun _ => false) (fun _ => false) ⟨none, some .group, true⟩
        initialCooldownState 100 .ok).notices = 0 := by
  exact ⟨by decide, by decide⟩

/-- C8 amended: provided the update carries an effective user and a message,
the `/warn` pipeline emits exactly one outbound notice on every admission
rejection and every handler failure, and none when the handler succeeds; an
update without an effective user can be dropped with no notice. -/
theorem warn_admission_notice_count (gAdmin cAdmin : Nat → Bool) (u : TgUpdate)
    (st : CooldownState) (now : ℚ) (hres : HandlerResult) (uid : Nat)
    (hu : u.effective_user = some uid) (hm : u.has_message = true) :
    (warn_admission gAdmin cAdmin u st now hres).notices
      = if (warn_admission gAdmin cAdmin u st now hres).result = .handlerOk
        then 0 else 1 := by
  rcases u with ⟨eu, ec, msg⟩
  cases hu
  cases hm
  cases ec with
  | none => simp [warn_admission]
  | some ct =>
      by_cases hct : ct = .group ∨ ct = .supergroup
      · by_cases hg : gAdmin uid = true
        · cases hres <;>
            simp [warn_admission, hct, command_cooldown_run, admin_required_run,
              command_cooldown_check, hg, error_handler_run]
        · rw [Bool.not_eq_true] at hg
          by_cases hcd : now - st "warn" uid < ((lookupCooldown "warn" none : Nat) : ℚ)
          · cases hres <;>
              simp [warn_admission, hct, command_cooldown_run, admin_required_run,
                command_cooldown_check, hg, hcd, error_handler_run]
          · by_cases hca : cAdmin uid = true
            · cases hres <;>
                simp [warn_admission, hct, command_cooldown_run, admin_required_run,
                  command_cooldown_check, hg, hcd, hca, error_handler_run]
            · rw [Bool.not_eq_true] at hca
              cases hres <;>
                simp [warn_admission, hct, command_cooldown_run, admin_required_run,
                  command_cooldown_check, hg, hcd, hca, error_handler_run]
      · simp [warn_admission, hct]

/-- C8 amended, witness: a `/warn` from a non-admin user with a message in a
private chat is rejected by the chat-type gate with exactly one notice. -/
theorem warn_admission_notice_count_witness :
    (warn_admission (fun _ => false) (fun _ => false) ⟨some 7, some .privateChat, true⟩
        initialCooldownState 100 .ok).notices
      = if (warn_admission (fun _ => false) (fun _ => false)
            ⟨some 7, some .privateChat, true⟩ initialCooldownState 100 .ok).result
          = .handlerOk then 0 else 1 :=
  warn_admission_notice_count (fun _ => false) (fun _ => false)
    ⟨some 7, some .privateChat, true⟩ initialCooldownState 100 .ok 7 rfl rfl

/-! ## C4: per-command cooldown -/

/-- C4: for a user outside the global admin set with a fresh cooldown entry,
two cooldown checks for the same command closer together than the command's
configured cooldown `T` yield exactly one `allowed` and one `onCooldown`; the
rejection reports `⌊T - elapsed⌋` remaining seconds; the accepted call records
its timestamp in the returned table (and leaves it recorded on the later
rejected call); and in the `/warn` pipeline the admitted invocation's
timestamp is recorded in the table the inner layers and the handler see, for
every handler outcome. -/
theorem command_cooldown_two_calls (admins : Nat → Bool) (u : Nat)
    (h_admin : admins u = false) (cmd : String) (dflt : Option Nat)
    (st : CooldownState) (h_fresh : st cmd u = 0)
    (t1 t2 : ℚ) (hT1 : ((lookupCooldown cmd dflt : Nat) : ℚ) ≤ t1) (h12 : t1 ≤ t2)
    (hlt : t2 - t1 < ((lookupCooldown cmd dflt : Nat) : ℚ)) :
    (command_cooldown_check cmd dflt admins st u t1).2 = .allowed ∧
    (command_cooldown_check cmd dflt admins st u t1).1 cmd u = t1 ∧
    (command_cooldown_check cmd dflt admins
        (command_cooldown_check cmd dflt admins st u t1).1 u t2).2
      = .onCooldown ⌊((lookupCooldown cmd dflt : Nat) : ℚ) - (t2 - t1)⌋ ∧
    (command_cooldown_check cmd dflt admins
        (command_cooldown_check cmd dflt admins st u t1).1 u t2).1
      = (command_cooldown_check cmd dflt admins st u t1).1 ∧
    (∀ (gA cA : Nat → Bool) (uid : Nat) (ct : ChatType) (st' : CooldownState)
        (now : ℚ) (hres : HandlerResult),
      gA uid = false → (ct = .group ∨ ct = .supergroup) →
      ¬(now - st' "warn" uid < ((lookupCooldown "warn" none : Nat) : ℚ)) →
      (warn_admission gA cA ⟨some uid, some ct, true⟩ st' now hres).cooldownState
        "warn" uid = now) := by
  have hnot1 : ¬(t1 - st cmd u < ((lookupCooldown cmd dflt : Nat) : ℚ)) := by
    rw [h_fresh]
    simpa using hT1
  have hfirst : command_cooldown_check cmd dflt admins st u t1
      = (fun c u' => if c = cmd ∧ u' = u then t1 else st c u', .allowed) := by
    simp [command_cooldown_check, h_admin, hnot1]
  have hstate : (command_cooldown_check cmd dflt admins st u t1).1 cmd u = t1 := by
    rw [hfirst]
    simp
  refine ⟨by rw [hfirst], hstate, ?_, ?_, ?_⟩
  · rw [hfirst]
    simp [command_cooldown_check, h_admin, hlt]
  · rw [hfirst]
    simp [command_cooldown_check, h_admin, hlt]
  · intro gA cA uid ct st' now hres hg hct hcd
    rcases hres <;>
      rcases (by by_cases hca : cA uid = true <;> simp [hca] :
        cA uid = true ∨ cA uid = false) with hca | hca <;>
      simp [warn_admission, hct, command_cooldown_run, admin_required_run,
        command_cooldown_check, hg, hcd, hca, error_handler_run]

/-- C4 witness: user 7 (not an admin), command `warn` (cooldown 10s), fresh
table, calls at t=100 and t=105: the first is allowed and records 100, the
second is rejected with 5 seconds remaining. -/
theorem command_cooldown_two_calls_witness :
    (command_cooldown_check "warn" none (fun _ => false) initialCooldownState 7 100).2
      = .allowed ∧
    (command_cooldown_check "warn" none (fun _ => false) initialCooldownState 7 100).1
      "warn" 7 = 100 ∧
    (command_cooldown_check "warn" none (fun _ => false)
        (command_cooldown_check "warn" none (fun _ => false)
          initialCooldownState 7 100).1 7 105).2
      = .onCooldown 5 := by
  have h10 : lookupCooldown "warn" none = 10 := rfl
  obtain ⟨h1, h2, h3, h4, h5⟩ := command_cooldown_two_calls (fun _ => false) 7 rfl
    "warn" none initialCooldownState rfl 100 105
    (by rw [h10]; norm_num) (by norm_num) (by rw [h10]; norm_num)
  refine ⟨h1, h2, ?_⟩
  rw [h3, h10]
  norm_num

/-! ## C7: removing the last active warning -/

theorem remove_last_warning_none (c uId : Int) (now : ℚ) :
    ∀ store : List WarningRec,
      (∀ w ∈ store, ¬(w.chat_id = c ∧ w.user_id = uId ∧ warningActive now w = true)) →
      remove_last_warning c uId now store = (store, none) := by
  intro store
  induction store with
  | nil => intro _; rfl
  | cons w ws ih =>
      intro h
      have hw := h w (by simp)
      have hws := ih (fun x hx => h x (by simp [hx]))
      have hcond : (w.chat_id == c && w.user_id == uId && warningActive now w) = false := by
        rw [Bool.eq_false_iff]
        simp only [ne_eq, Bool.and_eq_true, beq_iff_eq]
        intro hx
        exact hw ⟨hx.1.1, hx.1.2, hx.2⟩
      unfold remove_last_warning
      rw [hws]
      simp [hcond]

theorem remove_last_warning_found (c uId : Int) (now : ℚ) :
    ∀ (l1 : List WarningRec) (w : WarningRec) (l2 : List WarningRec),
      w.chat_id = c → w.user_id = uId → warningActive now w = true →
      (∀ x ∈ l2, ¬(x.chat_id = c ∧ x.user_id = uId ∧ warningActive now x = true)) →
      remove_last_warning c uId now (l1 ++ w :: l2)
        = (l1 ++ ({ w with expiry := some now }) :: l2, some w) := by
  intro l1
  induction l1 with
  | nil =>
      intro w l2 h1 h2 h3 hl2
      have hcond : (w.chat_id == c && w.user_id == uId && warningActive now w) = true := by
        simp [h1, h2, h3]
      simp only [List.nil_append]
      unfold remove_last_warning
      rw [remove_last_warning_none c uId now l2 hl2]
      simp [hcond]
  | cons a l1' ih =>
      intro w l2 h1 h2 h3 hl2
      simp only [List.cons_append]
      unfold remove_last_warning
      rw [ih w l2 h1 h2 h3 hl2]

/-- C7: `RemoveLastWarning` on a target with no active warning returns `None`
and leaves every stored record unchanged; when active warnings exist it
mutates exactly the most recently issued active one, setting its expiry to
`now`, returns it, and leaves every other record — in particular every
already-expired warning — untouched. -/
theorem remove_last_warning_spec (c uId : Int) (now : ℚ) (store : List WarningRec) :
    ((∀ w ∈ store, ¬(w.chat_id = c ∧ w.user_id = uId ∧ warningActive now w = true)) →
      remove_last_warning c uId now store = (store, none)) ∧
    (∀ l1 w l2, store = l1 ++ w :: l2 →
      w.chat_id = c → w.user_id = uId → warningActive now w = true →
      (∀ x ∈ l2, ¬(x.chat_id = c ∧ x.user_id = uId ∧ warningActive now x = true)) →
      remove_last_warning c uId now store
        = (l1 ++ ({ w with expiry := some now }) :: l2, some w)) := by
  constructor
  · exact remove_last_warning_none c uId now store
  · intro l1 w l2 hstore h1 h2 h3 hl2
    subst hstore
    exact remove_last_warning_found c uId now l1 w l2 h1 h2 h3 hl2

/-- C7 witness: with only an expired warning on record the removal returns
`None` and changes nothing; with one active (null-expiry) warning before the
expired one, exactly the active one is marked expired at `now = 50` and
returned, and the expired record is untouched. -/
theorem remove_last_warning_spec_witness :
    remove_last_warning 1 2 50 [⟨2, 1, "r2", 9, 20, some 30⟩]
      = ([⟨2, 1, "r2", 9, 20, some 30⟩], none) ∧
    remove_last_warning 1 2 50 [⟨2, 1, "r1", 9, 10, none⟩, ⟨2, 1, "r2", 9, 20, some 30⟩]
      = ([⟨2, 1, "r1", 9, 10, some 50⟩, ⟨2, 1, "r2", 9, 20, some 30⟩],
         some ⟨2, 1, "r1", 9, 10, none⟩) := by
  have hexp : ∀ x ∈ ([⟨2, 1, "r2", 9, 20, some 30⟩] : List WarningRec),
      ¬(x.chat_id = 1 ∧ x.user_id = 2 ∧ warningActive 50 x = true) := by
    intro x hx
    simp only [List.mem_singleton] at hx
    subst hx
    rintro ⟨-, -, hact⟩
    norm_num [warningActive] at hact
  constructor
  · exact (remove_last_warning_spec 1 2 50 _).1 hexp
  · exact (remove_last_warning_spec 1 2 50 _).2 [] ⟨2, 1, "r1", 9, 10, none⟩
      [⟨2, 1, "r2", 9, 20, some 30⟩] rfl rfl rfl rfl hexp

/-! ## C9: message chunking -/

/-- C9 counterexample: for the 10-character single-line message `aaaaaaaaaa`
and `chunk_size = 5`, `chunk_message` emits the whole oversized line as one
chunk of length 10 > 5 (and also a spurious empty first chunk). -/
theorem chunk_message_oversize_cex :
    ¬ (∀ chunk ∈ chunk_message (List.replicate 10 'a') 5, chunk.length ≤ 5) := by
  decide

theorem chunkFold_invariant (cs : Nat) :
    ∀ (parts : List (List Char)) (acc : List (List Char) × List Char),
      (∀ p ∈ parts, p.length + 1 ≤ cs) →
      (∀ chunk ∈ acc.1, chunk.length ≤ cs) → acc.2.length ≤ cs →
      (∀ chunk ∈ (parts.foldl (chunkStep cs) acc).1, chunk.length ≤ cs) ∧
      (parts.foldl (chunkStep cs) acc).2.length ≤ cs := by
  intro parts
  induction parts with
  | nil => intro acc _ h1 h2; exact ⟨h1, h2⟩
  | cons p ps ih =>
      intro acc hp h1 h2
      simp only [List.foldl_cons]
      apply ih
      · intro q hq
        exact hp q (by simp [hq])
      · unfold chunkStep
        split
        · exact h1
        · intro chunk hchunk
          rcases List.mem_append.mp hchunk with h | h
          · exact h1 chunk h
          · simp only [List.mem_singleton] at h
            subst h
            exact le_trans (pyStrip_length_le acc.2) h2
      · unfold chunkStep
        split
        · next hle =>
            simp only [List.length_append, List.length_singleton]
            simpa using hle
        · next hgt =>
            have := hp p (by simp)
            simp only [List.length_append, List.length_singleton]
            omega

/-- C9 amended: whenever every newline-separated line of the input is shorter
than `chunk_size` (so that line plus separator fits), every chunk returned by
`chunk_message` has length at most `chunk_size`; unconditionally, an input of
length at most `chunk_size` is returned as the one-element list containing the
input unchanged. -/
theorem chunk_message_bounds (message : List Char) (chunk_size : Nat)
    (hparts : ∀ p ∈ splitNl message, p.length + 1 ≤ chunk_size) :
    (∀ chunk ∈ chunk_message message chunk_size, chunk.length ≤ chunk_size) ∧
    (message.length ≤ chunk_size → chunk_message message chunk_size = [message]) := by
  constructor
  · intro chunk hchunk
    unfold chunk_message at hchunk
    split at hchunk
    · next hle =>
        simp only [List.mem_singleton] at hchunk
        subst hchunk
        exact hle
    · next hgt =>
        obtain ⟨hall, hcur⟩ := chunkFold_invariant chunk_size (splitNl message) ([], [])
          hparts (by simp) (by simp)
        simp only at hchunk
        split at hchunk
        · rcases List.mem_append.mp hchunk with h | h
          · exact hall chunk h
          · simp only [List.mem_singleton] at h
            subst h
            exact le_trans (pyStrip_length_le _) hcur
        · exact hall chunk hchunk
  · intro hle
    unfold chunk_message
    rw [if_pos hle]

/-- C9 amended, witness: the message `ab\ncd\nef` (length 8) with
`chunk_size = 4`: every line has length 2+1 ≤ 4, so every returned chunk has
length at most 4; and the short message `ab` is returned unchanged. -/
theorem chunk_message_bounds_witness :
    (∀ chunk ∈ chunk_message ['a', 'b', '\n', 'c', 'd', '\n', 'e', 'f'] 4,
      chunk.length ≤ 4) ∧
    (['a', 'b'].length ≤ 4 → chunk_message ['a', 'b'] 4 = [['a', 'b']]) :=
  ⟨(chunk_message_bounds ['a', 'b', '\n', 'c', 'd', '\n', 'e', 'f'] 4 (by decide)).1,
   (chunk_message_bounds ['a', 'b'] 4 (by decide)).2⟩

/-! ## C10: duration parsing -/

/-- C10 counterexample: `parse_duration` is not total: the string `xs` ends in
`'s'` but its prefix is not an int literal, so `int('x')` raises `ValueError`
instead of returning a value or `None`. -/
theorem parse_duration_raises_cex :
    parse_duration ['x', 's'] = .error .valueError ∧
    ¬ ∃ v, parse_duration ['x', 's'] = .ok v := by
  refine ⟨rfl, ?_⟩
  rintro ⟨v, hv⟩
  rw [show parse_duration ['x', 's'] = .error .valueError from rfl] at hv
  exact absurd hv (by simp)

/-- C10 amended: `parse_duration` dispatches on the final character: a string
`body ++ [unit]` with unit `'s'`/`'m'`/`'h'`/`'d'` is converted with
`int(body)` and multiplied by 1/60/3600/86400, propagating the `ValueError`
raised by `int` when `body` is not a valid int literal (so the function is not
total on such strings); every string not ending in one of these four unit
letters yields `None`. -/
theorem parse_duration_characterization (body s : List Char)
    (hs : s.getLast? ≠ some 's') (hm : s.getLast? ≠ some 'm')
    (hh : s.getLast? ≠ some 'h') (hd : s.getLast? ≠ some 'd') :
    parse_duration (body ++ ['s']) = (pyInt body).map (fun n => some n) ∧
    parse_duration (body ++ ['m']) = (pyInt body).map (fun n => some (n * 60)) ∧
    parse_duration (body ++ ['h']) = (pyInt body).map (fun n => some (n * 3600)) ∧
    parse_duration (body ++ ['d']) = (pyInt body).map (fun n => some (n * 86400)) ∧
    parse_duration s = .ok none := by
  refine ⟨?_, ?_, ?_, ?_, ?_⟩
  · simp [parse_duration, List.getLast?_concat, List.dropLast_concat]
  · simp [parse_duration, List.getLast?_concat, List.dropLast_concat]
  · simp [parse_duration, List.getLast?_concat, List.dropLast_concat]
  · simp [parse_duration, List.getLast?_concat, List.dropLast_concat]
  · simp [parse_duration, hs, hm, hh, hd]

/-- C10 amended, witness: `30s`, `30m`, `30h`, `30d` parse to 30, 1800,
108000, 2592000 seconds, and `abc` yields `None`. -/
theorem parse_duration_characterization_witness :
    parse_duration ['3', '0', 's'] = .ok (some 30) ∧
    parse_duration ['3', '0', 'm'] = .ok (some 1800) ∧
    parse_duration ['3', '0', 'h'] = .ok (some 108000) ∧
    parse_duration ['3', '0', 'd'] = .ok (some 2592000) ∧
    parse_duration ['a', 'b', 'c'] = .ok none := by
  obtain ⟨h1, h2, h3, h4, h5⟩ := parse_duration_characterization ['3', '0'] ['a', 'b', 'c']
    (by decide) (by decide) (by decide) (by decide)
  have hint : pyInt ['3', '0'] = .ok 30 := rfl
  rw [hint] at h1 h2 h3 h4
  exact ⟨h1, h2, h3, h4, h5⟩

/-! ## C5: sliding-window rate limit -/

theorem is_rate_limited_length_le (s : List ℚ) (t : ℚ) (h : s.length ≤ MAX_REQUESTS) :
    (is_rate_limited s t).1.length ≤ MAX_REQUESTS := by
  have hf := List.length_filter_le (fun x => decide (t - RATE_LIMIT_PERIOD < x)) s
  unfold is_rate_limited
  by_cases hc : MAX_REQUESTS ≤
      (s.filter (fun x => decide (t - RATE_LIMIT_PERIOD < x))).length
  · simp only [if_pos hc]
    exact le_trans hf h
  · simp only [if_neg hc, List.length_append, List.length_singleton]
    omega

theorem rlRun_length_le (times : List ℚ) :
    ∀ s : List ℚ, s.length ≤ MAX_REQUESTS → (rlRun s times).1.length ≤ MAX_REQUESTS := by
  induction times with
  | nil => intro s h; exact h
  | cons t ts ih =>
      intro s h
      simp only [rlRun]
      exact ih _ (is_rate_limited_length_le s t h)

theorem rlRun_cons (s : List ℚ) (t : ℚ) (ts : List ℚ) :
    rlRun s (t :: ts)
      = ((rlRun (is_rate_limited s t).1 ts).1,
         if (is_rate_limited s t).2 then (rlRun (is_rate_limited s t).1 ts).2
         else t :: (rlRun (is_rate_limited s t).1 ts).2) := rfl

theorem filter_window_absorb (a b : ℚ) (hab : a ≤ b) (s : List ℚ) :
    (s.filter (fun x => decide (a < x))).filter (fun x => decide (b < x))
      = s.filter (fun x => decide (b < x)) := by
  rw [List.filter_filter]
  apply List.filter_congr
  intro x _
  by_cases hx : b < x
  · simp [hx, lt_of_le_of_lt hab hx]
  · simp [hx]

theorem rlRun_state_eq (times : List ℚ) :
    ∀ (s : List ℚ) (lastT : ℚ), times.getLast? = some lastT →
      times.Sorted (· ≤ ·) →
      (rlRun s times).1
        = (s ++ (rlRun s times).2).filter
            (fun x => decide (lastT - RATE_LIMIT_PERIOD < x)) := by
  induction times with
  | nil => intro s lastT hlast _; simp at hlast
  | cons t rest ih =>
      intro s lastT hlast hsort
      cases rest with
      | nil =>
          have ht : lastT = t := by
            rw [List.getLast?_singleton] at hlast
            exact (Option.some.inj hlast).symm
          subst ht
          by_cases hc : MAX_REQUESTS ≤
              (s.filter (fun x => decide (lastT - RATE_LIMIT_PERIOD < x))).length
          · simp [rlRun, is_rate_limited, hc]
          · have hself : lastT - RATE_LIMIT_PERIOD < lastT :=
              sub_lt_self lastT (by norm_num [RATE_LIMIT_PERIOD])
            simp [rlRun, is_rate_limited, hc, List.filter_append, hself]
      | cons t2 ts2 =>
          have hlast' : (t2 :: ts2).getLast? = some lastT := by
            rw [List.getLast?_cons_cons] at hlast
            exact hlast
          have hsort' : (t2 :: ts2).Sorted (· ≤ ·) := (List.sorted_cons.mp hsort).2
          have hmem : lastT ∈ t2 :: ts2 := by
            have hne : (t2 :: ts2) ≠ [] := List.cons_ne_nil _ _
            have h2 := hlast'
            rw [List.getLast?_eq_getLast _ hne] at h2
            injection h2 with h2
            rw [← h2]
            exact List.getLast_mem hne
          have htle : t ≤ lastT := (List.sorted_cons.mp hsort).1 lastT hmem
          have hcut : t - RATE_LIMIT_PERIOD ≤ lastT - RATE_LIMIT_PERIOD := by linarith
          by_cases hc : MAX_REQUESTS ≤
              (s.filter (fun x => decide (t - RATE_LIMIT_PERIOD < x))).length
          · have hr : is_rate_limited s t
                = (s.filter (fun x => decide (t - RATE_LIMIT_PERIOD < x)), true) := by
              simp [is_rate_limited, hc]
            have ihp := ih (s.filter (fun x => decide (t - RATE_LIMIT_PERIOD < x)))
              lastT hlast' hsort'
            rw [rlRun_cons, hr]
            simp only [if_true]
            rw [ihp, List.filter_append, List.filter_append,
              filter_window_absorb _ _ hcut s]
          · have hr : is_rate_limited s t
                = (s.filter (fun x => decide (t - RATE_LIMIT_PERIOD < x)) ++ [t], false) := by
              simp [is_rate_limited, hc]
            have ihp := ih (s.filter (fun x => decide (t - RATE_LIMIT_PERIOD < x)) ++ [t])
              lastT hlast' hsort'
            rw [rlRun_cons, hr]
            simp only [Bool.false_eq_true, if_false]
            rw [ihp, List.filter_append, List.filter_append, List.filter_append,
              filter_window_absorb _ _ hcut s, List.filter_cons]
            by_cases hwt : lastT - RATE_LIMIT_PERIOD < t
            · simp [hwt]
            · simp [hwt]

theorem checkRlRun_eq_rlRun (admins : Nat → Bool) (uid : Nat)
    (h : admins uid = false) :
    ∀ (ts s : List ℚ), checkRlRun admins uid s ts = rlRun s ts := by
  intro ts
  induction ts with
  | nil => intro s; rfl
  | cons t ts' ih =>
      intro s
      simp only [checkRlRun, rlRun, check_rate_limit_step, h, Bool.false_eq_true,
        if_false]
      rw [ih]

/-- C5: for a user outside the global admin set, running any non-decreasing
sequence of `check_rate_limit` admissions from a fresh cache: (a) the cached
timestamp list never holds more than `MAX_REQUESTS = 5` entries after a check;
(b) at most 5 admissions succeed within the trailing `RATE_LIMIT_PERIOD = 5`
seconds of the latest check; (c) when 5 admissions already succeeded within
the period preceding a further check, that check is rejected as rate-limited.
Each check prunes entries older than `now - period`, rejects if at least 5
remain, and otherwise appends `now` and accepts. -/
theorem rate_limit_window_spec (admins : Nat → Bool) (uid : Nat)
    (h_admin : admins uid = false) (times : List ℚ) (t : ℚ)
    (hsort : (times ++ [t]).Sorted (· ≤ ·)) :
    (checkRlRun admins uid [] (times ++ [t])).1.length ≤ MAX_REQUESTS ∧
    ((checkRlRun admins uid [] (times ++ [t])).2.filter
        (fun x => decide (t - RATE_LIMIT_PERIOD < x))).length ≤ MAX_REQUESTS ∧
    (MAX_REQUESTS ≤ ((checkRlRun admins uid [] times).2.filter
        (fun x => decide (t - RATE_LIMIT_PERIOD < x))).length →
      (check_rate_limit_step admins uid (checkRlRun admins uid [] times).1 t).2
        = true) := by
  rw [checkRlRun_eq_rlRun admins uid h_admin, checkRlRun_eq_rlRun admins uid h_admin]
  have hlen : (rlRun ([] : List ℚ) (times ++ [t])).1.length ≤ MAX_REQUESTS :=
    rlRun_length_le (times ++ [t]) [] (by simp)
  have hchar := rlRun_state_eq (times ++ [t]) [] t (List.getLast?_concat _) hsort
  rw [List.nil_append] at hchar
  refine ⟨hlen, ?_, ?_⟩
  · rw [← hchar]
    exact hlen
  · intro h5
    cases hlastc : times.getLast? with
    | none =>
        have htimes : times = [] := by
          cases times with
          | nil => rfl
          | cons a l => rw [List.getLast?_eq_getLast _ (List.cons_ne_nil a l)] at hlastc; cases hlastc
        subst htimes
        simp only [rlRun, List.filter_nil, List.length_nil] at h5
        norm_num [MAX_REQUESTS] at h5
    | some lastT =>
        have hsort_times : times.Sorted (· ≤ ·) := (List.pairwise_append.mp hsort).1
        have hne : times ≠ [] := by
          intro h
          rw [h] at hlastc
          cases hlastc
        have hmem : lastT ∈ times := by
          have h2 := hlastc
          rw [List.getLast?_eq_getLast _ hne] at h2
          injection h2 with h2
          rw [← h2]
          exact List.getLast_mem hne
        have hle : lastT ≤ t :=
          (List.pairwise_append.mp hsort).2.2 lastT hmem t (by simp)
        have hchar2 := rlRun_state_eq times [] lastT hlastc hsort_times
        rw [List.nil_append] at hchar2
        simp only [check_rate_limit_step, h_admin, Bool.false_eq_true, if_false]
        unfold is_rate_limited
        rw [hchar2, filter_window_absorb _ _
          (by linarith : lastT - RATE_LIMIT_PERIOD ≤ t - RATE_LIMIT_PERIOD)]
        rw [if_pos h5]

/-- C5 witness: the non-admin user 7 checks at times 0,1,2,3,4 (all admitted)
and again at 4.5: the cache length stays at 5, and the check at 4.5 — the 6th
within the trailing 5-second window — is rejected as rate-limited. -/
theorem rate_limit_window_spec_witness :
    (checkRlRun (fun _ => false) 7 [] ([0, 1, 2, 3, 4] ++ [9/2])).1.length
      ≤ MAX_REQUESTS ∧
    (check_rate_limit_step (fun _ => false) 7
        (checkRlRun (fun _ => false) 7 [] [0, 1, 2, 3, 4]).1 (9/2)).2 = true := by
  obtain ⟨h1, h2, h3⟩ := rate_limit_window_spec (fun _ => false) 7 rfl
    [0, 1, 2, 3, 4] (9/2) (by norm_num [List.sorted_cons])
  refine ⟨h1, h3 ?_⟩
  have hrun : checkRlRun (fun _ => false) 7 [] [0, 1, 2, 3, 4]
      = ([0, 1, 2, 3, 4], [0, 1, 2, 3, 4]) := by
    rw [checkRlRun_eq_rlRun (fun _ => false) 7 rfl]
    norm_num [rlRun, is_rate_limited, RATE_LIMIT_PERIOD, MAX_REQUESTS]
  rw [hrun]
  norm_num [RATE_LIMIT_PERIOD, MAX_REQUESTS]
